import Mathlib

/-!
# kern/openssl_kern.c: SSL_read / SSL_write / connect probes

A shallow embedding of the five BPF programs of `kern/openssl_kern.c` and of the
helpers they call.  A probe firing is a pure function from the state of the BPF
maps before the firing to their state after it.

Conventions of the embedding

* Registers and `u64` values are natural numbers; a cast to `u32` is `% 2 ^ 32`,
  a cast to `int` goes through `to_int32`.
* Memory of the traced task is a partial map from addresses to bytes; an address
  that is not mapped makes a `bpf_probe_read` of a range containing it fail, and a
  failed read zero-fills its destination, as the kernel helper does.
* A perf-event array (`tls_events`, `connect_events`) is the sequence of records
  handed to `bpf_perf_event_output`, oldest first.
* A hash map is an association list with the capacity `max_entries` of its
  declaration; the per-CPU array `data_buffer_heap` is the list of its per-CPU
  values, indexed by the CPU the firing runs on.
* `debug_bpf_printk` writes to the trace pipe only, which is not part of the state.
-/

namespace OpensslKern

/-! ## Constants declared outside this file (`common.h`, `vmlinux.h`) -/

/-- The constants the probes take from `common.h`: they are compile-time macros,
except `target_pid`, which the loader writes before the probes are attached. -/
structure Consts where
  MAX_DATA_SIZE_OPENSSL : Nat
  TASK_COMM_LEN : Nat
  SA_DATA_LEN : Nat
  AF_INET : Nat
  target_pid : Nat

/-- Size in bytes of `sa_family_t` (`unsigned short`), the first field of `struct sockaddr`. -/
def sizeof_sa_family_t : Nat := 2

/-- Byte offset of the field `sa_data` in `struct sockaddr`: it follows `sa_family`. -/
def offsetof_sa_data : Nat := 2

/-! ## Data model -/

inductive ssl_data_event_type where
  | kSSLRead
  | kSSLWrite
deriving DecidableEq

structure ssl_data_event_t where
  type : ssl_data_event_type
  timestamp_ns : Nat
  pid : Nat
  tid : Nat
  data : List Nat
  data_len : Int
  comm : List Nat
deriving DecidableEq

structure connect_event_t where
  timestamp_ns : Nat
  pid : Nat
  tid : Nat
  fd : Nat
  sa_data : List Nat
  comm : List Nat
deriving DecidableEq

/-- A `BPF_MAP_TYPE_HASH` with `u64` keys and pointer values. -/
abbrev HashMap := List (Nat × Nat)

/-- The `max_entries` of both `active_ssl_read_args_map` and `active_ssl_write_args_map`. -/
def max_entries : Nat := 1024

/-- The BPF maps of the object file. -/
structure State where
  active_ssl_read_args_map : HashMap
  active_ssl_write_args_map : HashMap
  data_buffer_heap : List ssl_data_event_t
  tls_events : List ssl_data_event_t
  connect_events : List connect_event_t
deriving DecidableEq

/-- Everything a firing reads from outside the maps: the identity of the current
task, the registers of `struct pt_regs`, the clock, the task name, the CPU it
runs on and the memory of the traced task. -/
structure Firing where
  current_pid_tgid : Nat
  parm1 : Nat
  parm2 : Nat
  rc : Nat
  ktime_ns : Nat
  comm : List Nat
  cpu : Nat
  mem : Nat → Option Nat

/-! ## Kernel helpers -/

/-- The cast `(int)x` of a register value: the low 32 bits, read as two's complement. -/
def to_int32 (x : Nat) : Int :=
  if x % 2 ^ 32 < 2 ^ 31 then ((x % 2 ^ 32 : Nat) : Int) else ((x % 2 ^ 32 : Nat) : Int) - 2 ^ 32

/-- The bytes at `src .. src + size - 1`, when all of them are mapped. -/
def read_bytes (mem : Nat → Option Nat) (src : Nat) : Nat → Option (List Nat)
  | 0 => some []
  | size + 1 =>
    match mem src, read_bytes mem (src + 1) size with
    | some b, some bs => some (b :: bs)
    | _, _ => none

/-- What `bpf_probe_read(dst, size, src)` (and `bpf_probe_read_user`) leaves in its
`size` destination bytes: the source bytes, or zeros when the read faults. -/
def bpf_probe_read (mem : Nat → Option Nat) (size : Nat) (src : Nat) : List Nat :=
  match read_bytes mem src size with
  | some bs => bs
  | none => List.replicate size 0

/-- Writes `bytes` over the first bytes of the array `dst`; the rest of `dst` stays. -/
def store_bytes (dst : List Nat) (bytes : List Nat) : List Nat :=
  bytes ++ dst.drop bytes.length

/-- What `bpf_get_current_comm(buf, size)` leaves in `buf`: the task name, zero padded. -/
def bpf_get_current_comm (ctx : Firing) (size : Nat) : List Nat :=
  (ctx.comm ++ List.replicate size 0).take size

/-- Little-endian value of a sequence of bytes. -/
def le_value : List Nat → Nat
  | [] => 0
  | b :: bs => b + 256 * le_value bs

/-- `bpf_map_lookup_elem` on a hash map. -/
def bpf_map_lookup_elem (m : HashMap) (key : Nat) : Option Nat :=
  m.lookup key

/-- `bpf_map_update_elem(m, key, value, BPF_ANY)`: an existing key gets the new
value; a new key is inserted when the map holds fewer than `max_entries` entries,
and the update fails, leaving the map as it is, when the map is full. -/
def bpf_map_update_elem (m : HashMap) (key value : Nat) : HashMap :=
  if (m.lookup key).isSome then
    m.map (fun kv => if kv.1 = key then (key, value) else kv)
  else if m.length < max_entries then
    (key, value) :: m
  else
    m

/-- `bpf_map_delete_elem` on a hash map. -/
def bpf_map_delete_elem (m : HashMap) (key : Nat) : HashMap :=
  m.filter (fun kv => kv.1 ≠ key)

/-! ## General helper functions -/

/-- `create_ssl_data_event`: the scratch record of the current CPU with timestamp,
pid and tid stamped; `none` when the lookup in `data_buffer_heap` returns `NULL`.
The other fields are those the scratch record already had. -/
def create_ssl_data_event (ctx : Firing) (s : State) (current_pid_tgid : Nat) :
    Option ssl_data_event_t :=
  match s.data_buffer_heap[ctx.cpu]? with
  | none => none
  | some event =>
    some { event with
      timestamp_ns := ctx.ktime_ns
      pid := (current_pid_tgid / 2 ^ 32) % 2 ^ 32
      tid := current_pid_tgid % 2 ^ 32 }

/-- The copy length of `process_SSL_data`:
`len < MAX_DATA_SIZE_OPENSSL ? (len & (MAX_DATA_SIZE_OPENSSL - 1)) : MAX_DATA_SIZE_OPENSSL`. -/
def copy_len (MAX : Nat) (len : Int) : Int :=
  if len < (MAX : Int) then Int.land len ((MAX : Int) - 1) else (MAX : Int)

/-! ## BPF syscall processing functions -/

/-- `process_SSL_data`.  The record is built in the scratch slot of the current CPU
(which keeps it afterwards) and a copy of it is appended to `tls_events`. -/
def process_SSL_data (c : Consts) (ctx : Firing) (s : State) (id : Nat)
    (type : ssl_data_event_type) (buf : Nat) : State :=
  let len : Int := to_int32 ctx.rc
  if len < 0 then s
  else
    match create_ssl_data_event ctx s id with
    | none => s
    | some event =>
      let data_len := copy_len c.MAX_DATA_SIZE_OPENSSL len
      let event : ssl_data_event_t :=
        { event with
          type := type
          data_len := data_len
          data := store_bytes event.data (bpf_probe_read ctx.mem data_len.toNat buf)
          comm := bpf_get_current_comm ctx c.TASK_COMM_LEN }
      { s with
        data_buffer_heap := s.data_buffer_heap.set ctx.cpu event
        tls_events := s.tls_events ++ [event] }

/-! ## Introspection of the foreign `ssl_st` and `BIO` objects -/

/-- `sizeof(struct ssl_st)` on LP64: `int version`, padding, three pointers. -/
def sizeof_ssl_st : Nat := 32

/-- `sizeof(struct BIO)` on LP64, the empty `struct not_used` members taking no room. -/
def sizeof_bio_st : Nat := 40

/-- A field of `width` bytes at byte offset `off` of an object image. -/
def field_at (image : List Nat) (off width : Nat) : Nat :=
  le_value ((image.drop off).take width)

/-- The reads of an entry probe: `ssl_info.version` and `bio.num`, where `bio` is
read through the channel pointer at byte offset `bio_off` of `ssl_info`
(16 for `rbio`, 24 for `wbio`).  Both are passed to `debug_bpf_printk` only. -/
def introspect (ctx : Firing) (bio_off : Nat) : Nat × Nat :=
  let ssl_info := bpf_probe_read ctx.mem sizeof_ssl_st ctx.parm1
  let bio := bpf_probe_read ctx.mem sizeof_bio_st (field_at ssl_info bio_off 8)
  (field_at ssl_info 0 4, field_at bio 32 4)

/-- `debug_bpf_printk`: a line on the trace pipe, no effect on the maps. -/
def debug_bpf_printk (s : State) (_value : Nat) : State := s

/-! ## BPF probe function entry-points -/

/-- The test `target_pid != 0 && target_pid != pid` at the head of every probe. -/
def filtered_out (c : Consts) (ctx : Firing) : Bool :=
  decide (c.target_pid ≠ 0) && decide (c.target_pid ≠ (ctx.current_pid_tgid / 2 ^ 32) % 2 ^ 32)

def probe_entry_SSL_write (c : Consts) (ctx : Firing) (s : State) : State :=
  let current_pid_tgid := ctx.current_pid_tgid
  if filtered_out c ctx then s
  else
    let info := introspect ctx 24
    let s := debug_bpf_printk s info.1
    let s := debug_bpf_printk s info.2
    let buf := ctx.parm2
    { s with active_ssl_write_args_map :=
        bpf_map_update_elem s.active_ssl_write_args_map current_pid_tgid buf }

def probe_ret_SSL_write (c : Consts) (ctx : Firing) (s : State) : State :=
  let current_pid_tgid := ctx.current_pid_tgid
  if filtered_out c ctx then s
  else
    let s :=
      match bpf_map_lookup_elem s.active_ssl_write_args_map current_pid_tgid with
      | some buf => process_SSL_data c ctx s current_pid_tgid .kSSLWrite buf
      | none => s
    { s with active_ssl_write_args_map :=
        bpf_map_delete_elem s.active_ssl_write_args_map current_pid_tgid }

def probe_entry_SSL_read (c : Consts) (ctx : Firing) (s : State) : State :=
  let current_pid_tgid := ctx.current_pid_tgid
  if filtered_out c ctx then s
  else
    let info := introspect ctx 16
    let s := debug_bpf_printk s info.1
    let s := debug_bpf_printk s info.2
    let buf := ctx.parm2
    { s with active_ssl_read_args_map :=
        bpf_map_update_elem s.active_ssl_read_args_map current_pid_tgid buf }

def probe_ret_SSL_read (c : Consts) (ctx : Firing) (s : State) : State :=
  let current_pid_tgid := ctx.current_pid_tgid
  if filtered_out c ctx then s
  else
    let s :=
      match bpf_map_lookup_elem s.active_ssl_read_args_map current_pid_tgid with
      | some buf => process_SSL_data c ctx s current_pid_tgid .kSSLRead buf
      | none => s
    { s with active_ssl_read_args_map :=
        bpf_map_delete_elem s.active_ssl_read_args_map current_pid_tgid }

def probe_connect (c : Consts) (ctx : Firing) (s : State) : State :=
  let current_pid_tgid := ctx.current_pid_tgid
  let pid := (current_pid_tgid / 2 ^ 32) % 2 ^ 32
  if filtered_out c ctx then s
  else
    let fd := ctx.parm1 % 2 ^ 32
    let saddr := ctx.parm2
    if saddr = 0 then s
    else
      let address_family := le_value (bpf_probe_read ctx.mem sizeof_sa_family_t saddr)
      if address_family ≠ c.AF_INET then s
      else
        let s := debug_bpf_printk s address_family
        let conn : connect_event_t :=
          { timestamp_ns := ctx.ktime_ns
            pid := pid
            tid := current_pid_tgid % 2 ^ 32
            fd := fd
            sa_data := bpf_probe_read ctx.mem c.SA_DATA_LEN (saddr + offsetof_sa_data)
            comm := bpf_get_current_comm ctx c.TASK_COMM_LEN }
        { s with connect_events := s.connect_events ++ [conn] }

/-! ## Sequences of firings -/

/-- The five attachment points. -/
inductive Probe where
  | entry_SSL_write
  | ret_SSL_write
  | entry_SSL_read
  | ret_SSL_read
  | connect
deriving DecidableEq

/-- One firing of a probe. -/
def fire (c : Consts) (p : Probe) (ctx : Firing) (s : State) : State :=
  match p with
  | .entry_SSL_write => probe_entry_SSL_write c ctx s
  | .ret_SSL_write => probe_ret_SSL_write c ctx s
  | .entry_SSL_read => probe_entry_SSL_read c ctx s
  | .ret_SSL_read => probe_ret_SSL_read c ctx s
  | .connect => probe_connect c ctx s

/-- A sequence of firings, run to completion one after the other. -/
def run (c : Consts) : List (Probe × Firing) → State → State
  | [], s => s
  | (p, ctx) :: rest, s => run c rest (fire c p ctx s)

/-- The entry probe of a call kind. -/
def entry_probe : ssl_data_event_type → Probe
  | .kSSLRead => .entry_SSL_read
  | .kSSLWrite => .entry_SSL_write

/-- The return probe of a call kind. -/
def ret_probe : ssl_data_event_type → Probe
  | .kSSLRead => .ret_SSL_read
  | .kSSLWrite => .ret_SSL_write

/-- The correlator of a call kind. -/
def args_map (s : State) : ssl_data_event_type → HashMap
  | .kSSLRead => s.active_ssl_read_args_map
  | .kSSLWrite => s.active_ssl_write_args_map

/-- The process id of a firing: the upper 32 bits of the combined identity. -/
def pid_of (ctx : Firing) : Nat := (ctx.current_pid_tgid / 2 ^ 32) % 2 ^ 32

/-- Memory holding `bytes` from address `base` on and nothing else. -/
def mem_of (base : Nat) (bytes : List Nat) : Nat → Option Nat :=
  fun a => if base ≤ a then bytes[a - base]? else none

/-- Constants of a Linux build: 4096 payload bytes, 16 bytes of task name, 14
address bytes, `AF_INET = 2`, and no process filter. -/
def linux_consts : Consts :=
  { MAX_DATA_SIZE_OPENSSL := 4096, TASK_COMM_LEN := 16, SA_DATA_LEN := 14, AF_INET := 2,
    target_pid := 0 }

/-- A scratch record as the map is created: all zero, with room for `n` data bytes. -/
def blank_event (n : Nat) : ssl_data_event_t :=
  { type := .kSSLRead, timestamp_ns := 0, pid := 0, tid := 0, data := List.replicate n 0,
    data_len := 0, comm := [] }

/-- The maps right after loading on a single CPU: nothing stored, nothing published. -/
def init_state (n : Nat) : State :=
  { active_ssl_read_args_map := [], active_ssl_write_args_map := [],
    data_buffer_heap := [blank_event n], tls_events := [], connect_events := [] }

/-- A correlator holding `max_entries` entries: threads 0 .. 1023 of process 7. -/
def full_map : HashMap :=
  (List.range max_entries).map (fun i => (7 * 2 ^ 32 + i, 0))

/-- A firing of thread `tid` of process `pid` with second argument `buf` and return
register `rc`, on CPU 0, seeing the memory `mem`. -/
def firing_of (pid tid buf rc : Nat) (mem : Nat → Option Nat) : Firing :=
  { current_pid_tgid := pid * 2 ^ 32 + tid, parm1 := 0, parm2 := buf, rc := rc, ktime_ns := 0,
    comm := [], cpu := 0, mem := mem }

/-- A `struct sockaddr_in` for 93.184.216.34, port 443: family 2, then port and
address in network byte order, then eight bytes of padding. -/
def sockaddr_in_bytes : List Nat :=
  [2, 0, 1, 187, 93, 184, 216, 34, 0, 0, 0, 0, 0, 0, 0, 0]

/-- The first 16 bytes of a `struct sockaddr_in6` (family 10), port 443. -/
def sockaddr_in6_bytes : List Nat :=
  [10, 0, 1, 187, 0, 0, 0, 0, 32, 1, 13, 184, 0, 0, 0, 0]

/-- A firing of `connect(fd, saddr, len)` by thread 9 of process 1 on CPU 0. -/
def connect_firing (fd saddr : Nat) (mem : Nat → Option Nat) : Firing :=
  { current_pid_tgid := 1 * 2 ^ 32 + 9, parm1 := fd, parm2 := saddr, rc := 0, ktime_ns := 1000,
    comm := [99, 117, 114, 108], cpu := 0, mem := mem }

/-- The address argument of a `connect` firing is an IPv4 socket address: the
pointer is not `NULL` and the field `sa_family` it points to is readable and holds
`AF_INET`. -/
def family_is_ipv4 (c : Consts) (ctx : Firing) : Prop :=
  ctx.parm2 ≠ 0 ∧
    (read_bytes ctx.mem ctx.parm2 sizeof_sa_family_t).map le_value = some c.AF_INET

instance (c : Consts) (ctx : Firing) : Decidable (family_is_ipv4 c ctx) := by
  unfold family_is_ipv4; infer_instance

/-- The five bytes of "hello". -/
def hello_bytes : List Nat := [104, 101, 108, 108, 111]

/-- A scratch record as an earlier firing left it: a read event of another thread
whose `n` data bytes all hold the letter "s". -/
def stale_event (n : Nat) : ssl_data_event_t :=
  { type := .kSSLRead, timestamp_ns := 1, pid := 2, tid := 3, data := List.replicate n 115,
    data_len := n, comm := [] }

/-! ## The copy length -/

theorem copy_len_natCast (MAX n : Nat) :
    copy_len MAX (n : Int) = if n < MAX then ((n &&& (MAX - 1) : Nat) : Int) else (MAX : Int) := by
  unfold copy_len
  by_cases h : n < MAX
  · have h1 : ((n : Int) < (MAX : Int)) := by exact_mod_cast h
    have h2 : ((MAX : Int) - 1) = ((MAX - 1 : Nat) : Int) := by omega
    rw [if_pos h1, if_pos h, h2]
    rfl
  · have h1 : ¬ ((n : Int) < (MAX : Int)) := by exact_mod_cast h
    rw [if_neg h1, if_neg h]

theorem and_pred_pow_two (k n : Nat) (h : n < 2 ^ k) : n &&& (2 ^ k - 1) = n := by
  rw [Nat.and_pow_two_sub_one_eq_mod, Nat.mod_eq_of_lt h]

/-- When `m + 1` is not a power of two, some `L ≤ m` has no bit in common with `m`. -/
theorem exists_and_lt (m : Nat) (hm : 0 < m) (h : ¬ ∃ k, m + 1 = 2 ^ k) :
    ∃ L, L < m + 1 ∧ L &&& m < L := by
  have hk1 : 2 ^ Nat.log 2 m ≤ m := Nat.pow_log_le_self 2 (by omega)
  have hk2 : m < 2 ^ (Nat.log 2 m + 1) := Nat.lt_pow_succ_log_self (by decide) m
  generalize Nat.log 2 m = k at hk1 hk2
  have hne : m + 1 ≠ 2 ^ (k + 1) := fun e => h ⟨k + 1, e⟩
  refine ⟨2 ^ (k + 1) - (m + 1), ?_, ?_⟩
  · rw [pow_succ] at hk2 ⊢; omega
  · have hz : (2 ^ (k + 1) - (m + 1)) &&& m = 0 := by
      apply Nat.eq_of_testBit_eq
      intro i
      rw [Nat.testBit_and, Nat.testBit_two_pow_sub_succ hk2]
      simp
    rw [hz]; omega

/-- On a power of two the copy length is the minimum of the length and the capacity. -/
theorem copy_len_pow_two (k : Nat) (L : Int) (hL : 0 ≤ L) :
    copy_len (2 ^ k) L = min L ((2 ^ k : Nat) : Int) := by
  obtain ⟨n, rfl⟩ := Int.eq_ofNat_of_zero_le hL
  rw [copy_len_natCast]
  by_cases h : n < 2 ^ k
  · rw [if_pos h, and_pred_pow_two k n h]
    have : ((n : Int) ≤ ((2 ^ k : Nat) : Int)) := by exact_mod_cast h.le
    exact (min_eq_left this).symm
  · rw [if_neg h]
    have : (((2 ^ k : Nat) : Int) ≤ (n : Int)) := by exact_mod_cast (not_lt.mp h)
    exact (min_eq_right this).symm

/-- The copy length lies between 0 and the capacity and does not exceed the length. -/
theorem copy_len_bounds (MAX : Nat) (L : Int) (hL : 0 ≤ L) :
    0 ≤ copy_len MAX L ∧ copy_len MAX L ≤ (MAX : Int) ∧ copy_len MAX L ≤ L := by
  obtain ⟨n, rfl⟩ := Int.eq_ofNat_of_zero_le hL
  rw [copy_len_natCast]
  by_cases h : n < MAX
  · rw [if_pos h]
    have h1 : n &&& (MAX - 1) ≤ n := Nat.and_le_left
    refine ⟨by positivity, ?_, by exact_mod_cast h1⟩
    have : n &&& (MAX - 1) ≤ MAX := by omega
    exact_mod_cast this
  · rw [if_neg h]
    refine ⟨by positivity, le_refl _, ?_⟩
    exact_mod_cast (not_lt.mp h)

/-- C10. The masked copy length `copy_len MAX L` of `process_SSL_data` agrees with
`min L MAX` for every `L ≥ 0` exactly when the capacity `MAX ≥ 1` is a power of two;
for any other `MAX ≥ 1` some `0 ≤ L < MAX` gets a copy length strictly below `L`;
and for every `MAX ≥ 1` and `L ≥ 0` the copy length is in `0..MAX` and at most `L`. -/
theorem copy_len_eq_min_iff_pow_two (MAX : Nat) (hMAX : 1 ≤ MAX) :
    ((∀ L : Int, 0 ≤ L → copy_len MAX L = min L (MAX : Int)) ↔ ∃ k, MAX = 2 ^ k) ∧
    ((¬ ∃ k, MAX = 2 ^ k) → ∃ L : Int, 0 ≤ L ∧ L < (MAX : Int) ∧ copy_len MAX L < L) ∧
    (∀ L : Int, 0 ≤ L →
      0 ≤ copy_len MAX L ∧ copy_len MAX L ≤ (MAX : Int) ∧ copy_len MAX L ≤ L) := by
  have key : (¬ ∃ k, MAX = 2 ^ k) →
      ∃ L : Int, 0 ≤ L ∧ L < (MAX : Int) ∧ copy_len MAX L < L := by
    intro hnp
    obtain ⟨m, rfl⟩ : ∃ m, MAX = m + 1 := ⟨MAX - 1, by omega⟩
    have hm : 0 < m := by
      rcases Nat.eq_zero_or_pos m with h0 | h0
      · exact absurd ⟨0, by simp [h0]⟩ hnp
      · exact h0
    obtain ⟨L, hL1, hL2⟩ := exists_and_lt m hm hnp
    refine ⟨(L : Int), by positivity, by exact_mod_cast hL1, ?_⟩
    rw [copy_len_natCast, if_pos hL1]
    simpa using hL2
  refine ⟨⟨?_, ?_⟩, key, fun L hL => copy_len_bounds MAX L hL⟩
  · intro hall
    by_contra hnp
    obtain ⟨L, hL0, hL1, hL2⟩ := key hnp
    rw [hall L hL0, min_eq_left hL1.le] at hL2
    exact lt_irrefl _ hL2
  · rintro ⟨k, rfl⟩ L hL
    exact copy_len_pow_two k L hL

/-- C10 at the capacities 4096 (a power of two) and 3 (not one). -/
theorem copy_len_eq_min_iff_pow_two_witness :
    (∀ L : Int, 0 ≤ L → copy_len 4096 L = min L ((4096 : Nat) : Int)) ∧
    (∃ L : Int, 0 ≤ L ∧ L < ((3 : Nat) : Int) ∧ copy_len 3 L < L) :=
  ⟨(copy_len_eq_min_iff_pow_two 4096 (by decide)).1.2 ⟨12, by norm_num⟩,
   (copy_len_eq_min_iff_pow_two 3 (by decide)).2.1 (by
      rintro ⟨k, hk⟩
      have h2 : k < 2 := by
        by_contra h
        have : 2 ^ 2 ≤ 2 ^ k := Nat.pow_le_pow_right (by decide) (not_lt.mp h)
        omega
      interval_cases k <;> simp at hk)⟩

/-! ## `process_SSL_data` -/

theorem process_SSL_data_neg (c : Consts) (ctx : Firing) (s : State) (id : Nat)
    (type : ssl_data_event_type) (buf : Nat) (h : to_int32 ctx.rc < 0) :
    process_SSL_data c ctx s id type buf = s := by
  simp [process_SSL_data, h]

theorem process_SSL_data_no_slot (c : Consts) (ctx : Firing) (s : State) (id : Nat)
    (type : ssl_data_event_type) (buf : Nat) (h : s.data_buffer_heap[ctx.cpu]? = none) :
    process_SSL_data c ctx s id type buf = s := by
  simp [process_SSL_data, create_ssl_data_event, h]

/-- The record built and published for a non-negative length, field by field. -/
theorem process_SSL_data_publish (c : Consts) (ctx : Firing) (s : State) (id : Nat)
    (type : ssl_data_event_type) (buf : Nat) (slot : ssl_data_event_t)
    (hlen : 0 ≤ to_int32 ctx.rc) (hslot : s.data_buffer_heap[ctx.cpu]? = some slot) :
    ∃ e : ssl_data_event_t,
      process_SSL_data c ctx s id type buf =
        { s with data_buffer_heap := s.data_buffer_heap.set ctx.cpu e
                 tls_events := s.tls_events ++ [e] } ∧
      e.type = type ∧ e.timestamp_ns = ctx.ktime_ns ∧
      e.pid = (id / 2 ^ 32) % 2 ^ 32 ∧ e.tid = id % 2 ^ 32 ∧
      e.data_len = copy_len c.MAX_DATA_SIZE_OPENSSL (to_int32 ctx.rc) ∧
      e.data = store_bytes slot.data (bpf_probe_read ctx.mem
        (copy_len c.MAX_DATA_SIZE_OPENSSL (to_int32 ctx.rc)).toNat buf) ∧
      e.comm = bpf_get_current_comm ctx c.TASK_COMM_LEN := by
  have hn : ¬ to_int32 ctx.rc < 0 := not_lt.mpr hlen
  refine ⟨{ type := type, timestamp_ns := ctx.ktime_ns, pid := (id / 2 ^ 32) % 2 ^ 32,
             tid := id % 2 ^ 32,
             data := store_bytes slot.data (bpf_probe_read ctx.mem
               (copy_len c.MAX_DATA_SIZE_OPENSSL (to_int32 ctx.rc)).toNat buf),
             data_len := copy_len c.MAX_DATA_SIZE_OPENSSL (to_int32 ctx.rc),
             comm := bpf_get_current_comm ctx c.TASK_COMM_LEN },
    ?_, rfl, rfl, rfl, rfl, rfl, rfl, rfl⟩
  simp only [process_SSL_data, create_ssl_data_event, hslot, if_neg hn]

/-- `process_SSL_data` touches the scratch slot and the payload channel only. -/
theorem process_SSL_data_frame (c : Consts) (ctx : Firing) (s : State) (id : Nat)
    (type : ssl_data_event_type) (buf : Nat) :
    (process_SSL_data c ctx s id type buf).active_ssl_read_args_map = s.active_ssl_read_args_map ∧
    (process_SSL_data c ctx s id type buf).active_ssl_write_args_map = s.active_ssl_write_args_map ∧
    (process_SSL_data c ctx s id type buf).connect_events = s.connect_events ∧
    (process_SSL_data c ctx s id type buf).data_buffer_heap.length = s.data_buffer_heap.length := by
  unfold process_SSL_data
  by_cases h : to_int32 ctx.rc < 0
  · simp [h]
  · cases hc : create_ssl_data_event ctx s id <;> simp [h]

/-- C1. In `process_SSL_data`, with `L` the return register cast to `int` and the
capacity `MAX_DATA_SIZE_OPENSSL` a power of two: when `L ≥ 0` and the scratch slot
of the CPU is available, exactly one payload event is published and its `data_len`
is `min L MAX_DATA_SIZE_OPENSSL`; when `L < 0` nothing is published. -/
theorem process_SSL_data_data_len (c : Consts) (ctx : Firing) (s : State) (id : Nat)
    (type : ssl_data_event_type) (buf : Nat) (k : Nat)
    (hMAX : c.MAX_DATA_SIZE_OPENSSL = 2 ^ k) :
    (0 ≤ to_int32 ctx.rc → ctx.cpu < s.data_buffer_heap.length →
      ∃ e : ssl_data_event_t,
        (process_SSL_data c ctx s id type buf).tls_events = s.tls_events ++ [e] ∧
        e.data_len = min (to_int32 ctx.rc) (c.MAX_DATA_SIZE_OPENSSL : Int)) ∧
    (to_int32 ctx.rc < 0 →
      (process_SSL_data c ctx s id type buf).tls_events = s.tls_events) := by
  constructor
  · intro hlen hcpu
    obtain ⟨slot, hslot⟩ : ∃ slot, s.data_buffer_heap[ctx.cpu]? = some slot :=
      ⟨_, List.getElem?_eq_getElem hcpu⟩
    obtain ⟨e, he, _, _, _, _, hdl, _, _⟩ :=
      process_SSL_data_publish c ctx s id type buf slot hlen hslot
    refine ⟨e, by rw [he], ?_⟩
    rw [hdl, hMAX]
    exact copy_len_pow_two k _ hlen
  · intro hneg
    rw [process_SSL_data_neg c ctx s id type buf hneg]

/-- C1 on a Linux build: a call returning 5 publishes one event of length 5, a call
returning 5000 one of length 4096, and a call returning -1 (`0xffffffff`) none. -/
theorem process_SSL_data_data_len_witness :
    (∃ e : ssl_data_event_t,
      (process_SSL_data linux_consts
        { current_pid_tgid := 0, parm1 := 0, parm2 := 0, rc := 5, ktime_ns := 0, comm := [],
          cpu := 0, mem := fun _ => none }
        (init_state 4096) 0 .kSSLRead 0).tls_events = (init_state 4096).tls_events ++ [e] ∧
      e.data_len = min (5 : Int) 4096) ∧
    (∃ e : ssl_data_event_t,
      (process_SSL_data linux_consts
        { current_pid_tgid := 0, parm1 := 0, parm2 := 0, rc := 5000, ktime_ns := 0, comm := [],
          cpu := 0, mem := fun _ => none }
        (init_state 4096) 0 .kSSLRead 0).tls_events = (init_state 4096).tls_events ++ [e] ∧
      e.data_len = min (5000 : Int) 4096) ∧
    (process_SSL_data linux_consts
        { current_pid_tgid := 0, parm1 := 0, parm2 := 0, rc := 4294967295, ktime_ns := 0,
          comm := [], cpu := 0, mem := fun _ => none }
        (init_state 4096) 0 .kSSLRead 0).tls_events = (init_state 4096).tls_events :=
  ⟨(process_SSL_data_data_len linux_consts _ (init_state 4096) 0 .kSSLRead 0 12 (by rfl)).1
      (by decide) (by decide),
   (process_SSL_data_data_len linux_consts _ (init_state 4096) 0 .kSSLRead 0 12 (by rfl)).1
      (by decide) (by decide),
   (process_SSL_data_data_len linux_consts _ (init_state 4096) 0 .kSSLRead 0 12 (by rfl)).2
      (by decide)⟩

/-! ## Hash-map operations -/

theorem lookup_cons_ite (key a b : Nat) (rest : HashMap) :
    List.lookup key ((a, b) :: rest) = if key = a then some b else List.lookup key rest := by
  by_cases h : key = a
  · simp [List.lookup_cons, h]
  · have h2 : (key == a) = false := by simpa using h
    simp [List.lookup_cons, h, h2]

theorem lookup_delete_self (m : HashMap) (key : Nat) :
    bpf_map_lookup_elem (bpf_map_delete_elem m key) key = none := by
  unfold bpf_map_lookup_elem bpf_map_delete_elem
  induction m with
  | nil => rfl
  | cons kv rest ih =>
    obtain ⟨a, b⟩ := kv
    by_cases h : a = key
    · rw [List.filter_cons]; simpa [h] using ih
    · rw [List.filter_cons]
      have h2 : ¬ key = a := fun e => h e.symm
      simpa [h, lookup_cons_ite, h2] using ih

theorem lookup_delete_other (m : HashMap) (key other : Nat) (hne : other ≠ key) :
    bpf_map_lookup_elem (bpf_map_delete_elem m key) other = bpf_map_lookup_elem m other := by
  unfold bpf_map_lookup_elem bpf_map_delete_elem
  induction m with
  | nil => rfl
  | cons kv rest ih =>
    obtain ⟨a, b⟩ := kv
    by_cases h : a = key
    · have h2 : ¬ other = a := by rw [h]; exact hne
      rw [List.filter_cons, lookup_cons_ite, if_neg h2]; simpa [h] using ih
    · rw [List.filter_cons]
      have h3 : decide ((a, b).1 ≠ key) = true := by simpa using h
      rw [if_pos h3, lookup_cons_ite, lookup_cons_ite, ih]

theorem delete_of_lookup_none (m : HashMap) (key : Nat)
    (h : bpf_map_lookup_elem m key = none) : bpf_map_delete_elem m key = m := by
  unfold bpf_map_lookup_elem at h
  unfold bpf_map_delete_elem
  induction m with
  | nil => rfl
  | cons kv rest ih =>
    obtain ⟨a, b⟩ := kv
    rw [lookup_cons_ite] at h
    by_cases h1 : key = a
    · rw [if_pos h1] at h; exact absurd h (by simp)
    · rw [if_neg h1] at h
      have h3 : decide ((a, b).1 ≠ key) = true := by simpa using fun e => h1 e.symm
      rw [List.filter_cons, if_pos h3, ih h]

theorem lookup_replace (m : HashMap) (key value : Nat)
    (h : (m.lookup key).isSome = true) :
    (m.map (fun kv => if kv.1 = key then (key, value) else kv)).lookup key = some value := by
  induction m with
  | nil => simp at h
  | cons kv rest ih =>
    obtain ⟨a, b⟩ := kv
    rw [lookup_cons_ite] at h
    rw [List.map_cons]
    by_cases h1 : a = key
    · simp [h1, lookup_cons_ite]
    · have h2 : ¬ key = a := fun e => h1 e.symm
      rw [if_neg h2] at h
      simp only [h1, if_false, lookup_cons_ite, h2]
      exact ih h

theorem lookup_replace_other (m : HashMap) (key value other : Nat) (hne : other ≠ key) :
    (m.map (fun kv => if kv.1 = key then (key, value) else kv)).lookup other = m.lookup other := by
  induction m with
  | nil => rfl
  | cons kv rest ih =>
    obtain ⟨a, b⟩ := kv
    rw [List.map_cons]
    by_cases h1 : a = key
    · have h3 : ¬ other = a := by rw [h1]; exact hne
      simp only [h1, if_true, lookup_cons_ite, if_neg hne]
      rw [ih]
    · simp only [h1, if_false, lookup_cons_ite]
      rw [ih]

/-- An update that finds the key, or room for it, stores the value. -/
theorem lookup_update_self (m : HashMap) (key value : Nat)
    (h : (bpf_map_lookup_elem m key).isSome = true ∨ m.length < max_entries) :
    bpf_map_lookup_elem (bpf_map_update_elem m key value) key = some value := by
  unfold bpf_map_lookup_elem at h ⊢
  unfold bpf_map_update_elem
  by_cases h1 : (m.lookup key).isSome = true
  · rw [if_pos h1]; exact lookup_replace m key value h1
  · rcases h with h | h
    · exact absurd h h1
    · rw [if_neg h1, if_pos h, lookup_cons_ite, if_pos rfl]

/-- An update never changes what another key maps to. -/
theorem lookup_update_other (m : HashMap) (key value other : Nat) (hne : other ≠ key) :
    bpf_map_lookup_elem (bpf_map_update_elem m key value) other = bpf_map_lookup_elem m other := by
  unfold bpf_map_lookup_elem bpf_map_update_elem
  by_cases h1 : (m.lookup key).isSome = true
  · rw [if_pos h1]; exact lookup_replace_other m key value other hne
  · rw [if_neg h1]
    by_cases h2 : m.length < max_entries
    · rw [if_pos h2, lookup_cons_ite, if_neg hne]
    · rw [if_neg h2]

/-- An update on a full map that lacks the key fails and leaves the map as it is. -/
theorem update_full (m : HashMap) (key value : Nat)
    (h1 : bpf_map_lookup_elem m key = none) (h2 : max_entries ≤ m.length) :
    bpf_map_update_elem m key value = m := by
  unfold bpf_map_lookup_elem at h1
  unfold bpf_map_update_elem
  simp [h1, not_lt.mpr h2]

/-! ## The PID filter -/

theorem filtered_out_iff (c : Consts) (ctx : Firing) :
    filtered_out c ctx = false ↔ (c.target_pid = 0 ∨ c.target_pid = pid_of ctx) := by
  unfold filtered_out pid_of
  by_cases h1 : c.target_pid = 0 <;>
    by_cases h2 : c.target_pid = ctx.current_pid_tgid / 2 ^ 32 % 2 ^ 32 <;> simp [h1, h2]

theorem fire_filtered_out (c : Consts) (p : Probe) (ctx : Firing) (s : State)
    (h : filtered_out c ctx = true) : fire c p ctx s = s := by
  cases p <;>
    simp [fire, probe_entry_SSL_write, probe_ret_SSL_write, probe_entry_SSL_read,
      probe_ret_SSL_read, probe_connect, h]

/-- C6. For each of the five probes: a firing passes the filter exactly when
`target_pid` is 0 or equals the firing's process id (the upper 32 bits of the
combined identity); a firing that does not pass leaves both correlators, the
scratch slots and both channels as they were; so with a filter `P ≠ 0` only firings
of process `P` change anything. -/
theorem pid_filter_gate (c : Consts) (p : Probe) (ctx : Firing) (s : State) :
    (filtered_out c ctx = false ↔ (c.target_pid = 0 ∨ c.target_pid = pid_of ctx)) ∧
    (¬ (c.target_pid = 0 ∨ c.target_pid = pid_of ctx) → fire c p ctx s = s) ∧
    (c.target_pid ≠ 0 → fire c p ctx s ≠ s → pid_of ctx = c.target_pid) := by
  refine ⟨filtered_out_iff c ctx, ?_, ?_⟩
  · intro h
    apply fire_filtered_out
    have := (filtered_out_iff c ctx).not.mpr h
    simpa using this
  · intro h0 hne
    by_contra hpid
    apply hne
    apply fire_filtered_out
    have := (filtered_out_iff c ctx).not.mpr (fun h => h.elim h0 (fun e => hpid e.symm))
    simpa using this

/-- C6 with the filter set to process 5: a write call of thread 9 of process 1
stores nothing at entry, and the firing of process 5 is the one that passes. -/
theorem pid_filter_gate_witness :
    fire { linux_consts with target_pid := 5 } .entry_SSL_write
      { current_pid_tgid := 1 * 2 ^ 32 + 9, parm1 := 0, parm2 := 4096, rc := 0, ktime_ns := 0,
        comm := [], cpu := 0, mem := fun _ => none }
      (init_state 4096) = init_state 4096 :=
  (pid_filter_gate { linux_consts with target_pid := 5 } .entry_SSL_write
      { current_pid_tgid := 1 * 2 ^ 32 + 9, parm1 := 0, parm2 := 4096, rc := 0, ktime_ns := 0,
        comm := [], cpu := 0, mem := fun _ => none }
      (init_state 4096)).2.1 (by decide)

/-! ## Return probes -/

theorem probe_ret_SSL_write_pass (c : Consts) (ctx : Firing) (s : State)
    (hpass : filtered_out c ctx = false) :
    (probe_ret_SSL_write c ctx s).active_ssl_write_args_map =
        bpf_map_delete_elem s.active_ssl_write_args_map ctx.current_pid_tgid ∧
    (probe_ret_SSL_write c ctx s).active_ssl_read_args_map = s.active_ssl_read_args_map := by
  unfold probe_ret_SSL_write
  simp only [hpass]
  cases h : bpf_map_lookup_elem s.active_ssl_write_args_map ctx.current_pid_tgid with
  | none => simp
  | some buf =>
    have hf := process_SSL_data_frame c ctx s ctx.current_pid_tgid .kSSLWrite buf
    simp [hf.1, hf.2.1]

theorem probe_ret_SSL_read_pass (c : Consts) (ctx : Firing) (s : State)
    (hpass : filtered_out c ctx = false) :
    (probe_ret_SSL_read c ctx s).active_ssl_read_args_map =
        bpf_map_delete_elem s.active_ssl_read_args_map ctx.current_pid_tgid ∧
    (probe_ret_SSL_read c ctx s).active_ssl_write_args_map = s.active_ssl_write_args_map := by
  unfold probe_ret_SSL_read
  simp only [hpass]
  cases h : bpf_map_lookup_elem s.active_ssl_read_args_map ctx.current_pid_tgid with
  | none => simp
  | some buf =>
    have hf := process_SSL_data_frame c ctx s ctx.current_pid_tgid .kSSLRead buf
    simp [hf.1, hf.2.1]

/-- A return firing that finds no entry for its thread changes nothing. -/
theorem probe_ret_SSL_write_no_entry (c : Consts) (ctx : Firing) (s : State)
    (h : bpf_map_lookup_elem s.active_ssl_write_args_map ctx.current_pid_tgid = none) :
    probe_ret_SSL_write c ctx s = s := by
  unfold probe_ret_SSL_write
  cases hf : filtered_out c ctx
  · simp [h, delete_of_lookup_none _ _ h]
  · simp

theorem probe_ret_SSL_read_no_entry (c : Consts) (ctx : Firing) (s : State)
    (h : bpf_map_lookup_elem s.active_ssl_read_args_map ctx.current_pid_tgid = none) :
    probe_ret_SSL_read c ctx s = s := by
  unfold probe_ret_SSL_read
  cases hf : filtered_out c ctx
  · simp [h, delete_of_lookup_none _ _ h]
  · simp

theorem filtered_out_congr (c : Consts) (ctx1 ctx2 : Firing)
    (hid : ctx2.current_pid_tgid = ctx1.current_pid_tgid) :
    filtered_out c ctx2 = filtered_out c ctx1 := by
  unfold filtered_out
  rw [hid]

/-- C3. A return firing of either kind that passes the PID filter leaves the
correlator of its kind without an entry for the firing's thread identity, whatever
else the firing did, and with every other key mapped as before. -/
theorem ret_probe_deletes_entry (c : Consts) (ctx : Firing) (s : State)
    (hpass : filtered_out c ctx = false) :
    (bpf_map_lookup_elem (probe_ret_SSL_read c ctx s).active_ssl_read_args_map
        ctx.current_pid_tgid = none ∧
      ∀ key, key ≠ ctx.current_pid_tgid →
        bpf_map_lookup_elem (probe_ret_SSL_read c ctx s).active_ssl_read_args_map key =
          bpf_map_lookup_elem s.active_ssl_read_args_map key) ∧
    (bpf_map_lookup_elem (probe_ret_SSL_write c ctx s).active_ssl_write_args_map
        ctx.current_pid_tgid = none ∧
      ∀ key, key ≠ ctx.current_pid_tgid →
        bpf_map_lookup_elem (probe_ret_SSL_write c ctx s).active_ssl_write_args_map key =
          bpf_map_lookup_elem s.active_ssl_write_args_map key) := by
  rw [(probe_ret_SSL_read_pass c ctx s hpass).1, (probe_ret_SSL_write_pass c ctx s hpass).1]
  exact ⟨⟨lookup_delete_self _ _, fun key hk => lookup_delete_other _ _ key hk⟩,
         ⟨lookup_delete_self _ _, fun key hk => lookup_delete_other _ _ key hk⟩⟩

/-- C3 on a read call that returns -1: thread 9 of process 1 has a read entry, the
return firing publishes nothing and the entry is gone, the entry of thread 10 stays. -/
theorem ret_probe_deletes_entry_witness :
    (probe_ret_SSL_read linux_consts (firing_of 1 9 0 4294967295 (fun _ => none))
      { init_state 4096 with
        active_ssl_read_args_map := [(1 * 2 ^ 32 + 9, 4096), (1 * 2 ^ 32 + 10, 8192)] }).tls_events
      = [] ∧
    bpf_map_lookup_elem
      (probe_ret_SSL_read linux_consts (firing_of 1 9 0 4294967295 (fun _ => none))
        { init_state 4096 with
          active_ssl_read_args_map := [(1 * 2 ^ 32 + 9, 4096), (1 * 2 ^ 32 + 10, 8192)] }
      ).active_ssl_read_args_map (firing_of 1 9 0 4294967295 (fun _ => none)).current_pid_tgid
      = none :=
  ⟨by decide,
   (ret_probe_deletes_entry linux_consts (firing_of 1 9 0 4294967295 (fun _ => none))
      { init_state 4096 with
        active_ssl_read_args_map := [(1 * 2 ^ 32 + 9, 4096), (1 * 2 ^ 32 + 10, 8192)] }
      (by decide)).1.1⟩

/-! ## Entry probes -/

theorem probe_entry_SSL_write_pass (c : Consts) (ctx : Firing) (s : State)
    (hpass : filtered_out c ctx = false) :
    probe_entry_SSL_write c ctx s =
      { s with active_ssl_write_args_map :=
          bpf_map_update_elem s.active_ssl_write_args_map ctx.current_pid_tgid ctx.parm2 } := by
  simp [probe_entry_SSL_write, hpass, debug_bpf_printk]

theorem probe_entry_SSL_read_pass (c : Consts) (ctx : Firing) (s : State)
    (hpass : filtered_out c ctx = false) :
    probe_entry_SSL_read c ctx s =
      { s with active_ssl_read_args_map :=
          bpf_map_update_elem s.active_ssl_read_args_map ctx.current_pid_tgid ctx.parm2 } := by
  simp [probe_entry_SSL_read, hpass, debug_bpf_printk]

/-- The claim C9 fails on a full correlator: with 1024 entries of other threads in
`active_ssl_write_args_map`, the entry firing of thread 5000 of process 7 with
buffer pointer 4096 passes the filter and leaves the correlator without an entry
for that thread. -/
theorem entry_probe_full_map_counterexample :
    filtered_out linux_consts (firing_of 7 5000 4096 0 (fun _ => none)) = false ∧
    bpf_map_lookup_elem
      (probe_entry_SSL_write linux_consts (firing_of 7 5000 4096 0 (fun _ => none))
        { init_state 4096 with active_ssl_write_args_map := full_map }).active_ssl_write_args_map
      (firing_of 7 5000 4096 0 (fun _ => none)).current_pid_tgid = none := by
  have hlook : bpf_map_lookup_elem full_map (7 * 2 ^ 32 + 5000) = none := by
    unfold bpf_map_lookup_elem full_map
    rw [List.lookup_eq_none_iff]
    intro kv hkv
    obtain ⟨i, hi, rfl⟩ := List.mem_map.mp hkv
    have hi2 : i < 1024 := by simpa [max_entries] using hi
    have hne : 7 * 2 ^ 32 + 5000 ≠ 7 * 2 ^ 32 + i := by omega
    simpa using hne
  have hfull : max_entries ≤ full_map.length := by simp [full_map]
  have hpass : filtered_out linux_consts (firing_of 7 5000 4096 0 (fun _ => none)) = false := by
    decide
  refine ⟨hpass, ?_⟩
  rw [probe_entry_SSL_write_pass _ _ _ hpass]
  have hkey : (firing_of 7 5000 4096 0 (fun _ => none)).current_pid_tgid = 7 * 2 ^ 32 + 5000 :=
    rfl
  have hbuf : (firing_of 7 5000 4096 0 (fun _ => none)).parm2 = 4096 := rfl
  simp only [hkey, hbuf]
  rw [update_full _ _ _ hlook hfull, hlook]

/-- C9, amended. An entry firing of either kind that passes the PID filter, on a
correlator of its kind that already has an entry for the thread or holds fewer
than 1024 entries: afterwards that correlator maps the thread identity to the
call's second argument, whatever it mapped it to before; every other key is mapped
as before; nothing is published; and the resulting state is the same for every
content of the traced memory and every first argument, so it does not depend on
the introspected version or descriptor.  On a full correlator without an entry
for the thread the firing changes nothing. -/
theorem entry_probe_stores (c : Consts) (ctx : Firing) (s : State)
    (hpass : filtered_out c ctx = false) :
    (((bpf_map_lookup_elem s.active_ssl_write_args_map ctx.current_pid_tgid).isSome = true ∨
        s.active_ssl_write_args_map.length < max_entries) →
      bpf_map_lookup_elem (probe_entry_SSL_write c ctx s).active_ssl_write_args_map
        ctx.current_pid_tgid = some ctx.parm2) ∧
    (((bpf_map_lookup_elem s.active_ssl_read_args_map ctx.current_pid_tgid).isSome = true ∨
        s.active_ssl_read_args_map.length < max_entries) →
      bpf_map_lookup_elem (probe_entry_SSL_read c ctx s).active_ssl_read_args_map
        ctx.current_pid_tgid = some ctx.parm2) ∧
    (∀ key, key ≠ ctx.current_pid_tgid →
      bpf_map_lookup_elem (probe_entry_SSL_write c ctx s).active_ssl_write_args_map key =
        bpf_map_lookup_elem s.active_ssl_write_args_map key ∧
      bpf_map_lookup_elem (probe_entry_SSL_read c ctx s).active_ssl_read_args_map key =
        bpf_map_lookup_elem s.active_ssl_read_args_map key) ∧
    ((probe_entry_SSL_write c ctx s).tls_events = s.tls_events ∧
      (probe_entry_SSL_write c ctx s).connect_events = s.connect_events ∧
      (probe_entry_SSL_read c ctx s).tls_events = s.tls_events ∧
      (probe_entry_SSL_read c ctx s).connect_events = s.connect_events) ∧
    (∀ (mem : Nat → Option Nat) (ssl : Nat),
      probe_entry_SSL_write c { ctx with mem := mem, parm1 := ssl } s =
        probe_entry_SSL_write c ctx s ∧
      probe_entry_SSL_read c { ctx with mem := mem, parm1 := ssl } s =
        probe_entry_SSL_read c ctx s) ∧
    ((bpf_map_lookup_elem s.active_ssl_write_args_map ctx.current_pid_tgid = none ∧
        max_entries ≤ s.active_ssl_write_args_map.length) →
      probe_entry_SSL_write c ctx s = s) ∧
    ((bpf_map_lookup_elem s.active_ssl_read_args_map ctx.current_pid_tgid = none ∧
        max_entries ≤ s.active_ssl_read_args_map.length) →
      probe_entry_SSL_read c ctx s = s) := by
  have hw := probe_entry_SSL_write_pass c ctx s hpass
  have hr := probe_entry_SSL_read_pass c ctx s hpass
  refine ⟨?_, ?_, ?_, ?_, ?_, ?_, ?_⟩
  · intro h; rw [hw]; exact lookup_update_self _ _ _ h
  · intro h; rw [hr]; exact lookup_update_self _ _ _ h
  · intro key hk
    rw [hw, hr]
    exact ⟨lookup_update_other _ _ _ key hk, lookup_update_other _ _ _ key hk⟩
  · rw [hw, hr]; exact ⟨rfl, rfl, rfl, rfl⟩
  · intro mem ssl
    have hpass2 : filtered_out c { ctx with mem := mem, parm1 := ssl } = false := by
      rw [← hpass]; exact filtered_out_congr c ctx _ rfl
    rw [hw, hr, probe_entry_SSL_write_pass c _ s hpass2, probe_entry_SSL_read_pass c _ s hpass2]
    exact ⟨rfl, rfl⟩
  · rintro ⟨h1, h2⟩; rw [hw, update_full _ _ _ h1 h2]
  · rintro ⟨h1, h2⟩; rw [hr, update_full _ _ _ h1 h2]

/-- C9, amended, on a write call of thread 9 of process 1 with buffer pointer 4096,
while the correlator still holds the pointer 8192 of an earlier call of the thread. -/
theorem entry_probe_stores_witness :
    bpf_map_lookup_elem
      (probe_entry_SSL_write linux_consts (firing_of 1 9 4096 0 (fun _ => none))
        { init_state 4096 with active_ssl_write_args_map := [(1 * 2 ^ 32 + 9, 8192)] }
      ).active_ssl_write_args_map (firing_of 1 9 4096 0 (fun _ => none)).current_pid_tgid
      = some (firing_of 1 9 4096 0 (fun _ => none)).parm2 :=
  (entry_probe_stores linux_consts (firing_of 1 9 4096 0 (fun _ => none))
    { init_state 4096 with active_ssl_write_args_map := [(1 * 2 ^ 32 + 9, 8192)] }
    (by decide)).1 (Or.inl (by decide))

/-! ## The connect probe -/

theorem probe_connect_ipv4 (c : Consts) (ctx : Firing) (s : State)
    (hpass : filtered_out c ctx = false) (h : family_is_ipv4 c ctx) :
    probe_connect c ctx s =
      { s with connect_events := s.connect_events ++
          [{ timestamp_ns := ctx.ktime_ns
             pid := (ctx.current_pid_tgid / 2 ^ 32) % 2 ^ 32
             tid := ctx.current_pid_tgid % 2 ^ 32
             fd := ctx.parm1 % 2 ^ 32
             sa_data := bpf_probe_read ctx.mem c.SA_DATA_LEN (ctx.parm2 + offsetof_sa_data)
             comm := bpf_get_current_comm ctx c.TASK_COMM_LEN }] } := by
  obtain ⟨h0, hfam⟩ := h
  cases hr : read_bytes ctx.mem ctx.parm2 sizeof_sa_family_t with
  | none => rw [hr] at hfam; simp at hfam
  | some bs =>
    rw [hr] at hfam
    have hv : le_value bs = c.AF_INET := by simpa using hfam
    simp [probe_connect, hpass, h0, bpf_probe_read, hr, hv, debug_bpf_printk]

theorem probe_connect_other (c : Consts) (ctx : Firing) (s : State)
    (hAF : c.AF_INET ≠ 0) (h : ¬ family_is_ipv4 c ctx) :
    probe_connect c ctx s = s := by
  unfold probe_connect
  cases hf : filtered_out c ctx
  · by_cases h0 : ctx.parm2 = 0
    · simp [h0]
    · cases hr : read_bytes ctx.mem ctx.parm2 sizeof_sa_family_t with
      | none =>
        have hz : le_value (List.replicate sizeof_sa_family_t 0) ≠ c.AF_INET := by
          intro e; apply hAF; rw [← e]; decide
        simp [h0, bpf_probe_read, hr, hz]
      | some bs =>
        have hv : le_value bs ≠ c.AF_INET := by
          intro e; apply h
          exact ⟨h0, by rw [hr]; simp [e]⟩
        simp [h0, bpf_probe_read, hr, hv]
  · simp

/-- Whatever the firing, `probe_connect` either changes nothing or appends one
event whose address bytes are those read at the field `sa_data` of the argument. -/
theorem probe_connect_cases (c : Consts) (ctx : Firing) (s : State) :
    probe_connect c ctx s = s ∨
    ∃ e : connect_event_t,
      probe_connect c ctx s = { s with connect_events := s.connect_events ++ [e] } ∧
      e.sa_data = bpf_probe_read ctx.mem c.SA_DATA_LEN (ctx.parm2 + offsetof_sa_data) := by
  unfold probe_connect
  cases hf : filtered_out c ctx
  · by_cases h0 : ctx.parm2 = 0
    · left; simp [h0]
    · by_cases hv : le_value (bpf_probe_read ctx.mem sizeof_sa_family_t ctx.parm2) = c.AF_INET
      · right
        refine ⟨{ timestamp_ns := ctx.ktime_ns
                  pid := (ctx.current_pid_tgid / 2 ^ 32) % 2 ^ 32
                  tid := ctx.current_pid_tgid % 2 ^ 32
                  fd := ctx.parm1 % 2 ^ 32
                  sa_data := bpf_probe_read ctx.mem c.SA_DATA_LEN (ctx.parm2 + offsetof_sa_data)
                  comm := bpf_get_current_comm ctx c.TASK_COMM_LEN }, ?_, rfl⟩
        simp [h0, hv, debug_bpf_printk]
      · left; simp [h0, hv]
  · left; simp

/-- C4. A firing of `probe_connect` that passes the PID filter, `AF_INET` not
being 0: a connect event is published if and only if the family of the address
argument is `AF_INET`; then exactly one event is appended to `connect_events`,
carrying the descriptor argument, and nothing else changes; for any other family
the firing changes nothing. -/
theorem connect_iff_ipv4 (c : Consts) (ctx : Firing) (s : State)
    (hpass : filtered_out c ctx = false) (hAF : c.AF_INET ≠ 0) :
    ((probe_connect c ctx s).connect_events ≠ s.connect_events ↔ family_is_ipv4 c ctx) ∧
    (family_is_ipv4 c ctx →
      ∃ e : connect_event_t,
        probe_connect c ctx s = { s with connect_events := s.connect_events ++ [e] } ∧
        e.fd = ctx.parm1 % 2 ^ 32) ∧
    (¬ family_is_ipv4 c ctx → probe_connect c ctx s = s) := by
  refine ⟨⟨?_, ?_⟩, ?_, probe_connect_other c ctx s hAF⟩
  · intro hne
    by_contra h
    exact hne (by rw [probe_connect_other c ctx s hAF h])
  · intro h e
    rw [probe_connect_ipv4 c ctx s hpass h] at e
    have := congrArg List.length e
    simp at this
  · intro h
    exact ⟨_, probe_connect_ipv4 c ctx s hpass h, rfl⟩

/-- C4 on `connect(7, addr, 16)`: with an IPv4 address one connect event with
descriptor 7 is published; with an IPv6 address nothing changes. -/
theorem connect_iff_ipv4_witness :
    (∃ e : connect_event_t,
      probe_connect linux_consts (connect_firing 7 4096 (mem_of 4096 sockaddr_in_bytes))
          (init_state 4096) =
        { init_state 4096 with connect_events := (init_state 4096).connect_events ++ [e] } ∧
      e.fd = (connect_firing 7 4096 (mem_of 4096 sockaddr_in_bytes)).parm1 % 2 ^ 32) ∧
    probe_connect linux_consts (connect_firing 7 4096 (mem_of 4096 sockaddr_in6_bytes))
      (init_state 4096) = init_state 4096 :=
  ⟨(connect_iff_ipv4 linux_consts (connect_firing 7 4096 (mem_of 4096 sockaddr_in_bytes))
      (init_state 4096) (by decide) (by decide)).2.1 (by decide),
   (connect_iff_ipv4 linux_consts (connect_firing 7 4096 (mem_of 4096 sockaddr_in6_bytes))
      (init_state 4096) (by decide) (by decide)).2.2 (by decide)⟩

/-- The claim C5 fails on `connect(7, addr, 16)` with the IPv4 address
93.184.216.34:443 at 4096: the published `sa_data` is the 14 bytes that follow the
family, not the first 14 bytes of the address object. -/
theorem connect_sa_data_counterexample :
    (probe_connect linux_consts (connect_firing 7 4096 (mem_of 4096 sockaddr_in_bytes))
        (init_state 4096)).connect_events.map (fun e => e.sa_data) =
      [[1, 187, 93, 184, 216, 34, 0, 0, 0, 0, 0, 0, 0, 0]] ∧
    read_bytes (mem_of 4096 sockaddr_in_bytes) 4096 linux_consts.SA_DATA_LEN =
      some [2, 0, 1, 187, 93, 184, 216, 34, 0, 0, 0, 0, 0, 0] ∧
    ¬ (∀ e ∈ (probe_connect linux_consts
          (connect_firing 7 4096 (mem_of 4096 sockaddr_in_bytes))
          (init_state 4096)).connect_events,
        some e.sa_data =
          read_bytes (mem_of 4096 sockaddr_in_bytes) 4096 linux_consts.SA_DATA_LEN) := by
  decide

/-- C5, amended. For every connect event `probe_connect` publishes, the address
bytes `sa_data` are the `SA_DATA_LEN` bytes of the field `sa_data` of the
socket-address object, that is the bytes at offsets 2 .. `SA_DATA_LEN` + 1 of
the object the second argument points to, when these are readable, and
`SA_DATA_LEN` zero bytes when they are not. -/
theorem connect_sa_data (c : Consts) (ctx : Firing) (s : State) (e : connect_event_t)
    (hpub : (probe_connect c ctx s).connect_events = s.connect_events ++ [e]) :
    (∀ bs, read_bytes ctx.mem (ctx.parm2 + 2) c.SA_DATA_LEN = some bs → e.sa_data = bs) ∧
    (read_bytes ctx.mem (ctx.parm2 + 2) c.SA_DATA_LEN = none →
      e.sa_data = List.replicate c.SA_DATA_LEN 0) := by
  have hsa : e.sa_data = bpf_probe_read ctx.mem c.SA_DATA_LEN (ctx.parm2 + 2) := by
    rcases probe_connect_cases c ctx s with h | ⟨e2, h, hd⟩
    · rw [h] at hpub
      have := congrArg List.length hpub
      simp at this
    · rw [h] at hpub
      have he : e2 = e := by simpa using hpub
      rw [← he, hd]; rfl
  constructor
  · intro bs hbs; rw [hsa]; simp [bpf_probe_read, hbs]
  · intro hn; rw [hsa]; simp [bpf_probe_read, hn]

/-- C5, amended, on `connect(7, addr, 16)` with the address 93.184.216.34:443. -/
theorem connect_sa_data_witness :
    (probe_connect linux_consts (connect_firing 7 4096 (mem_of 4096 sockaddr_in_bytes))
        (init_state 4096)).connect_events =
      (init_state 4096).connect_events ++
        [⟨1000, 1, 9, 7, [1, 187, 93, 184, 216, 34, 0, 0, 0, 0, 0, 0, 0, 0],
          [99, 117, 114, 108, 0, 0, 0, 0, 0, 0, 0, 0, 0, 0, 0, 0]⟩] ∧
    (⟨1000, 1, 9, 7, [1, 187, 93, 184, 216, 34, 0, 0, 0, 0, 0, 0, 0, 0],
      [99, 117, 114, 108, 0, 0, 0, 0, 0, 0, 0, 0, 0, 0, 0, 0]⟩ : connect_event_t).sa_data =
      [1, 187, 93, 184, 216, 34, 0, 0, 0, 0, 0, 0, 0, 0] :=
  ⟨by decide,
   (connect_sa_data linux_consts (connect_firing 7 4096 (mem_of 4096 sockaddr_in_bytes))
    (init_state 4096)
    ⟨1000, 1, 9, 7, [1, 187, 93, 184, 216, 34, 0, 0, 0, 0, 0, 0, 0, 0],
      [99, 117, 114, 108, 0, 0, 0, 0, 0, 0, 0, 0, 0, 0, 0, 0]⟩ (by decide)).1
    [1, 187, 93, 184, 216, 34, 0, 0, 0, 0, 0, 0, 0, 0] (by decide)⟩

/-! ## Payload events -/

theorem read_bytes_length (mem : Nat → Option Nat) (n src : Nat) (bs : List Nat)
    (h : read_bytes mem src n = some bs) : bs.length = n := by
  induction n generalizing src bs with
  | zero => simp [read_bytes] at h; simp [← h]
  | succ n ih =>
    unfold read_bytes at h
    cases hm : mem src with
    | none => simp [hm] at h
    | some b =>
      cases hr : read_bytes mem (src + 1) n with
      | none => simp [hm, hr] at h
      | some rest =>
        simp [hm, hr] at h
        rw [← h, List.length_cons, ih (src + 1) rest hr]

theorem bpf_probe_read_length (mem : Nat → Option Nat) (n src : Nat) :
    (bpf_probe_read mem n src).length = n := by
  unfold bpf_probe_read
  cases h : read_bytes mem src n with
  | none => simp
  | some bs => exact read_bytes_length mem n src bs h

theorem store_bytes_take (dst bytes : List Nat) :
    (store_bytes dst bytes).take bytes.length = bytes := by
  simp [store_bytes]

theorem store_bytes_drop (dst bytes : List Nat) :
    (store_bytes dst bytes).drop bytes.length = dst.drop bytes.length := by
  simp [store_bytes]

/-- A return firing that passes the filter, finds the pointer `buf` for its thread,
reports a non-negative length and has its scratch slot: the record it publishes,
field by field, and the state it leaves. -/
theorem fire_ret_publish (c : Consts) (k : ssl_data_event_type) (ctx : Firing) (s : State)
    (buf : Nat) (slot : ssl_data_event_t) (hpass : filtered_out c ctx = false)
    (hbuf : bpf_map_lookup_elem (args_map s k) ctx.current_pid_tgid = some buf)
    (hlen : 0 ≤ to_int32 ctx.rc) (hslot : s.data_buffer_heap[ctx.cpu]? = some slot) :
    ∃ e : ssl_data_event_t,
      (fire c (ret_probe k) ctx s).tls_events = s.tls_events ++ [e] ∧
      (fire c (ret_probe k) ctx s).data_buffer_heap = s.data_buffer_heap.set ctx.cpu e ∧
      e.type = k ∧ e.timestamp_ns = ctx.ktime_ns ∧
      e.pid = (ctx.current_pid_tgid / 2 ^ 32) % 2 ^ 32 ∧ e.tid = ctx.current_pid_tgid % 2 ^ 32 ∧
      e.data_len = copy_len c.MAX_DATA_SIZE_OPENSSL (to_int32 ctx.rc) ∧
      e.data = store_bytes slot.data (bpf_probe_read ctx.mem
        (copy_len c.MAX_DATA_SIZE_OPENSSL (to_int32 ctx.rc)).toNat buf) ∧
      e.comm = bpf_get_current_comm ctx c.TASK_COMM_LEN := by
  obtain ⟨e, he, h1, h2, h3, h4, h5, h6, h7⟩ :=
    process_SSL_data_publish c ctx s ctx.current_pid_tgid k buf slot hlen hslot
  refine ⟨e, ?_, ?_, h1, h2, h3, h4, h5, h6, h7⟩
  · cases k
    · simp only [args_map] at hbuf
      simp [fire, ret_probe, probe_ret_SSL_read, hpass, hbuf, he]
    · simp only [args_map] at hbuf
      simp [fire, ret_probe, probe_ret_SSL_write, hpass, hbuf, he]
  · cases k
    · simp only [args_map] at hbuf
      simp [fire, ret_probe, probe_ret_SSL_read, hpass, hbuf, he]
    · simp only [args_map] at hbuf
      simp [fire, ret_probe, probe_ret_SSL_write, hpass, hbuf, he]

/-- The claim C8 fails on a write call of thread 9 of process 1 that returns 5 with
"hello" in its buffer: published from a blank scratch slot the record has 0 in
data byte 5, published from a slot an earlier firing filled it has the stale
byte 115 there, so the two records differ. -/
theorem payload_stale_bytes_counterexample :
    (fire linux_consts .ret_SSL_write (firing_of 1 9 0 5 (mem_of 4096 hello_bytes))
        { init_state 4096 with active_ssl_write_args_map := [(1 * 2 ^ 32 + 9, 4096)] }
      ).tls_events.map (fun e => (e.data_len, e.data.take 6)) =
      [(5, [104, 101, 108, 108, 111, 0])] ∧
    (fire linux_consts .ret_SSL_write (firing_of 1 9 0 5 (mem_of 4096 hello_bytes))
        { init_state 4096 with
          active_ssl_write_args_map := [(1 * 2 ^ 32 + 9, 4096)]
          data_buffer_heap := [stale_event 4096] }
      ).tls_events.map (fun e => (e.data_len, e.data.take 6)) =
      [(5, [104, 101, 108, 108, 111, 115])] ∧
    (fire linux_consts .ret_SSL_write (firing_of 1 9 0 5 (mem_of 4096 hello_bytes))
        { init_state 4096 with active_ssl_write_args_map := [(1 * 2 ^ 32 + 9, 4096)] }
      ).tls_events ≠
    (fire linux_consts .ret_SSL_write (firing_of 1 9 0 5 (mem_of 4096 hello_bytes))
        { init_state 4096 with
          active_ssl_write_args_map := [(1 * 2 ^ 32 + 9, 4096)]
          data_buffer_heap := [stale_event 4096] }
      ).tls_events := by
  decide

/-- C8, amended. A return firing of kind `k` that publishes a payload event (it
passes the filter, finds a pointer for its thread, reports a non-negative length
and has its scratch slot), run from two states that differ in the scratch slots
only: the two published records have the same `type`, `timestamp_ns`, `pid`,
`tid`, `data_len` and `comm` and the same first `data_len` data bytes, all of
them written by this firing; the data bytes from index `data_len` on are those the
scratch slot held before the firing. -/
theorem payload_event_overwritten (c : Consts) (k : ssl_data_event_type) (ctx : Firing)
    (s : State) (heap2 : List ssl_data_event_t) (buf : Nat) (slot1 slot2 : ssl_data_event_t)
    (hpass : filtered_out c ctx = false)
    (hbuf : bpf_map_lookup_elem (args_map s k) ctx.current_pid_tgid = some buf)
    (hlen : 0 ≤ to_int32 ctx.rc)
    (hslot1 : s.data_buffer_heap[ctx.cpu]? = some slot1)
    (hslot2 : heap2[ctx.cpu]? = some slot2) :
    ∃ e1 e2 : ssl_data_event_t,
      (fire c (ret_probe k) ctx s).tls_events = s.tls_events ++ [e1] ∧
      (fire c (ret_probe k) ctx { s with data_buffer_heap := heap2 }).tls_events =
        s.tls_events ++ [e2] ∧
      e1.type = e2.type ∧ e1.timestamp_ns = e2.timestamp_ns ∧ e1.pid = e2.pid ∧
      e1.tid = e2.tid ∧ e1.data_len = e2.data_len ∧ e1.comm = e2.comm ∧
      e1.data.take e1.data_len.toNat = e2.data.take e1.data_len.toNat ∧
      e1.data.drop e1.data_len.toNat = slot1.data.drop e1.data_len.toNat ∧
      e2.data.drop e1.data_len.toNat = slot2.data.drop e1.data_len.toNat := by
  have hbuf2 : bpf_map_lookup_elem (args_map { s with data_buffer_heap := heap2 } k)
      ctx.current_pid_tgid = some buf := by
    cases k <;> exact hbuf
  obtain ⟨e1, ht1, _, a1, a2, a3, a4, a5, a6, a7⟩ :=
    fire_ret_publish c k ctx s buf slot1 hpass hbuf hlen hslot1
  obtain ⟨e2, ht2, _, b1, b2, b3, b4, b5, b6, b7⟩ :=
    fire_ret_publish c k ctx { s with data_buffer_heap := heap2 } buf slot2 hpass hbuf2 hlen hslot2
  have hn : (bpf_probe_read ctx.mem
      (copy_len c.MAX_DATA_SIZE_OPENSSL (to_int32 ctx.rc)).toNat buf).length =
      e1.data_len.toNat := by
    rw [bpf_probe_read_length, a5]
  refine ⟨e1, e2, ht1, ht2, by rw [a1, b1], by rw [a2, b2], by rw [a3, b3], by rw [a4, b4],
    by rw [a5, b5], by rw [a7, b7], ?_, ?_, ?_⟩
  · rw [a6, b6, ← hn, store_bytes_take, store_bytes_take]
  · rw [a6, ← hn, store_bytes_drop]
  · rw [b6, ← hn, store_bytes_drop]

/-- C8, amended, on the write call of "hello": blank slot against stale slot. -/
theorem payload_event_overwritten_witness :
    ∃ e1 e2 : ssl_data_event_t,
      (fire linux_consts (ret_probe .kSSLWrite) (firing_of 1 9 0 5 (mem_of 4096 hello_bytes))
        { init_state 4096 with active_ssl_write_args_map := [(1 * 2 ^ 32 + 9, 4096)] }
        ).tls_events = [] ++ [e1] ∧
      (fire linux_consts (ret_probe .kSSLWrite) (firing_of 1 9 0 5 (mem_of 4096 hello_bytes))
        { init_state 4096 with
          active_ssl_write_args_map := [(1 * 2 ^ 32 + 9, 4096)]
          data_buffer_heap := [stale_event 4096] }).tls_events = [] ++ [e2] ∧
      e1.type = e2.type ∧ e1.timestamp_ns = e2.timestamp_ns ∧ e1.pid = e2.pid ∧
      e1.tid = e2.tid ∧ e1.data_len = e2.data_len ∧ e1.comm = e2.comm ∧
      e1.data.take e1.data_len.toNat = e2.data.take e1.data_len.toNat ∧
      e1.data.drop e1.data_len.toNat = (blank_event 4096).data.drop e1.data_len.toNat ∧
      e2.data.drop e1.data_len.toNat = (stale_event 4096).data.drop e1.data_len.toNat :=
  payload_event_overwritten linux_consts .kSSLWrite (firing_of 1 9 0 5 (mem_of 4096 hello_bytes))
    { init_state 4096 with active_ssl_write_args_map := [(1 * 2 ^ 32 + 9, 4096)] }
    [stale_event 4096] 4096 (blank_event 4096) (stale_event 4096)
    (by decide) (by decide) (by decide) rfl rfl

/-! ## An entry followed by its return -/

theorem run_append (c : Consts) (l1 l2 : List (Probe × Firing)) (s : State) :
    run c (l1 ++ l2) s = run c l2 (run c l1 s) := by
  induction l1 generalizing s with
  | nil => rfl
  | cons x rest ih =>
    obtain ⟨p, ctx⟩ := x
    simp only [List.cons_append, run]
    exact ih _

/-- No firing changes the number of scratch slots. -/
theorem fire_heap_length (c : Consts) (p : Probe) (ctx : Firing) (s : State) :
    (fire c p ctx s).data_buffer_heap.length = s.data_buffer_heap.length := by
  cases p
  · simp only [fire, probe_entry_SSL_write]
    split <;> rfl
  · simp only [fire, probe_ret_SSL_write]
    split
    · rfl
    · split
      · exact (process_SSL_data_frame c ctx s _ _ _).2.2.2
      · rfl
  · simp only [fire, probe_entry_SSL_read]
    split <;> rfl
  · simp only [fire, probe_ret_SSL_read]
    split
    · rfl
    · split
      · exact (process_SSL_data_frame c ctx s _ _ _).2.2.2
      · rfl
  · rcases probe_connect_cases c ctx s with h | ⟨e, h, _⟩ <;> simp only [fire, h]

/-- A firing of a probe that is neither the entry nor the return probe of kind `k`
leaves the correlator of kind `k` as it is. -/
theorem fire_other_args_map (c : Consts) (k : ssl_data_event_type) (p : Probe) (ctx : Firing)
    (s : State) (h1 : p ≠ entry_probe k) (h2 : p ≠ ret_probe k) :
    args_map (fire c p ctx s) k = args_map s k := by
  have hconn : (probe_connect c ctx s).active_ssl_read_args_map = s.active_ssl_read_args_map ∧
      (probe_connect c ctx s).active_ssl_write_args_map = s.active_ssl_write_args_map := by
    rcases probe_connect_cases c ctx s with h | ⟨e, h, _⟩ <;> rw [h] <;> exact ⟨rfl, rfl⟩
  have hew : (probe_entry_SSL_write c ctx s).active_ssl_read_args_map =
      s.active_ssl_read_args_map := by
    simp only [probe_entry_SSL_write, debug_bpf_printk]
    split <;> rfl
  have her : (probe_entry_SSL_read c ctx s).active_ssl_write_args_map =
      s.active_ssl_write_args_map := by
    simp only [probe_entry_SSL_read, debug_bpf_printk]
    split <;> rfl
  have hrw : (probe_ret_SSL_write c ctx s).active_ssl_read_args_map =
      s.active_ssl_read_args_map := by
    cases hf : filtered_out c ctx
    · exact (probe_ret_SSL_write_pass c ctx s hf).2
    · simp [probe_ret_SSL_write, hf]
  have hrr : (probe_ret_SSL_read c ctx s).active_ssl_write_args_map =
      s.active_ssl_write_args_map := by
    cases hf : filtered_out c ctx
    · exact (probe_ret_SSL_read_pass c ctx s hf).2
    · simp [probe_ret_SSL_read, hf]
  cases k
  · cases p
    · exact hew
    · exact hrw
    · exact absurd rfl h1
    · exact absurd rfl h2
    · exact hconn.1
  · cases p
    · exact absurd rfl h1
    · exact absurd rfl h2
    · exact her
    · exact hrr
    · exact hconn.2

theorem run_heap_length (c : Consts) (l : List (Probe × Firing)) (s : State) :
    (run c l s).data_buffer_heap.length = s.data_buffer_heap.length := by
  induction l generalizing s with
  | nil => rfl
  | cons x rest ih =>
    obtain ⟨p, ctx⟩ := x
    simp only [run]
    rw [ih, fire_heap_length]

theorem run_other_args_map (c : Consts) (k : ssl_data_event_type) (l : List (Probe × Firing))
    (s : State) (h : ∀ x ∈ l, x.1 ≠ entry_probe k ∧ x.1 ≠ ret_probe k) :
    args_map (run c l s) k = args_map s k := by
  induction l generalizing s with
  | nil => rfl
  | cons x rest ih =>
    obtain ⟨p, ctx⟩ := x
    simp only [run]
    rw [ih _ (fun y hy => h y (List.mem_cons_of_mem _ hy))]
    exact fire_other_args_map c k p ctx s (h (p, ctx) (List.mem_cons_self _ _)).1
      (h (p, ctx) (List.mem_cons_self _ _)).2

/-- An entry firing that passes the filter and finds the key or room for it
stores the second argument in the correlator of its kind. -/
theorem fire_entry_stores (c : Consts) (k : ssl_data_event_type) (ctx : Firing) (s : State)
    (hpass : filtered_out c ctx = false)
    (hroom : (bpf_map_lookup_elem (args_map s k) ctx.current_pid_tgid).isSome = true ∨
      (args_map s k).length < max_entries) :
    bpf_map_lookup_elem (args_map (fire c (entry_probe k) ctx s) k) ctx.current_pid_tgid =
      some ctx.parm2 := by
  cases k
  · simp only [fire, entry_probe, args_map] at hroom ⊢
    rw [probe_entry_SSL_read_pass c ctx s hpass]
    exact lookup_update_self _ _ _ hroom
  · simp only [fire, entry_probe, args_map] at hroom ⊢
    rw [probe_entry_SSL_write_pass c ctx s hpass]
    exact lookup_update_self _ _ _ hroom

/-- A write call entered on a full correlator that has no entry for the thread:
neither the entry firing nor the return firing changes anything. -/
theorem entry_ret_full_map (c : Consts) (ctx_e ctx_r : Firing) (s : State)
    (hpass : filtered_out c ctx_e = false)
    (hid : ctx_r.current_pid_tgid = ctx_e.current_pid_tgid)
    (hnone : bpf_map_lookup_elem s.active_ssl_write_args_map ctx_e.current_pid_tgid = none)
    (hfull : max_entries ≤ s.active_ssl_write_args_map.length) :
    run c [(.entry_SSL_write, ctx_e), (.ret_SSL_write, ctx_r)] s = s := by
  have h1 : probe_entry_SSL_write c ctx_e s = s := by
    rw [probe_entry_SSL_write_pass c ctx_e s hpass, update_full _ _ _ hnone hfull]
  have h2 : probe_ret_SSL_write c ctx_r s = s := by
    apply probe_ret_SSL_write_no_entry
    rw [hid]; exact hnone
  simp only [run, fire, h1, h2]

/-- The claim C2 fails in three ways.  With the filter set to process 5, a write
call of thread 9 of process 1 with "hello" publishes nothing.  With no filter and
1024 entries of other threads in `active_ssl_write_args_map`, a write call of
thread 5000 of process 7 publishes nothing.  With only the first three bytes of the
buffer mapped, the event of a write call returning 5 carries five zero bytes,
not the byte 104 found at the buffer address. -/
theorem entry_then_ret_counterexample :
    (run { linux_consts with target_pid := 5 }
        [(.entry_SSL_write, firing_of 1 9 4096 0 (mem_of 4096 hello_bytes)),
         (.ret_SSL_write, firing_of 1 9 0 5 (mem_of 4096 hello_bytes))]
        (init_state 4096)).tls_events = [] ∧
    (run linux_consts
        [(.entry_SSL_write, firing_of 7 5000 4096 0 (mem_of 4096 hello_bytes)),
         (.ret_SSL_write, firing_of 7 5000 0 5 (mem_of 4096 hello_bytes))]
        { init_state 4096 with active_ssl_write_args_map := full_map }).tls_events = [] ∧
    ((run linux_consts
        [(.entry_SSL_write, firing_of 1 9 4096 0 (mem_of 4096 [104, 101, 108])),
         (.ret_SSL_write, firing_of 1 9 0 5 (mem_of 4096 [104, 101, 108]))]
        (init_state 4096)).tls_events.map (fun e => (e.data_len, e.data.take 5)) =
        [(5, [0, 0, 0, 0, 0])] ∧
      mem_of 4096 [104, 101, 108] 4096 = some 104) := by
  refine ⟨by decide, ?_, by decide, by decide⟩
  have hlook : bpf_map_lookup_elem full_map (7 * 2 ^ 32 + 5000) = none := by
    unfold bpf_map_lookup_elem full_map
    rw [List.lookup_eq_none_iff]
    intro kv hkv
    obtain ⟨i, hi, rfl⟩ := List.mem_map.mp hkv
    have hi2 : i < 1024 := by simpa [max_entries] using hi
    have hne : 7 * 2 ^ 32 + 5000 ≠ 7 * 2 ^ 32 + i := by omega
    simpa using hne
  have hfull : max_entries ≤ full_map.length := by simp [full_map]
  have hst : run linux_consts
      [(.entry_SSL_write, firing_of 7 5000 4096 0 (mem_of 4096 hello_bytes)),
       (.ret_SSL_write, firing_of 7 5000 0 5 (mem_of 4096 hello_bytes))]
      { init_state 4096 with active_ssl_write_args_map := full_map } =
      { init_state 4096 with active_ssl_write_args_map := full_map } := by
    have hkey : (firing_of 7 5000 4096 0 (mem_of 4096 hello_bytes)).current_pid_tgid =
        7 * 2 ^ 32 + 5000 := rfl
    have hpass : filtered_out linux_consts
        (firing_of 7 5000 4096 0 (mem_of 4096 hello_bytes)) = false := by decide
    have hid : (firing_of 7 5000 0 5 (mem_of 4096 hello_bytes)).current_pid_tgid =
        (firing_of 7 5000 4096 0 (mem_of 4096 hello_bytes)).current_pid_tgid := rfl
    have hnone : bpf_map_lookup_elem
        ({ init_state 4096 with active_ssl_write_args_map := full_map } : State
          ).active_ssl_write_args_map
        (firing_of 7 5000 4096 0 (mem_of 4096 hello_bytes)).current_pid_tgid = none := by
      simp only [hkey]
      exact hlook
    have hlen : max_entries ≤ ({ init_state 4096 with active_ssl_write_args_map := full_map } :
        State).active_ssl_write_args_map.length := by
      simp only []
      exact hfull
    exact entry_ret_full_map linux_consts _ _ _ hpass hid hnone hlen
  rw [hst]
  rfl

/-- C2, amended. For every call kind `k`, thread identity, buffer pointer and
reported length `L ≥ 0`, the capacity being a power of two: an entry firing of
kind `k` that passes the PID filter and finds the correlator of kind `k` with an
entry for the thread or with fewer than 1024 entries, then any number of firings
of the other probes (on any thread), then the return firing of kind `k` on the
same thread identity with its scratch slot available: that return publishes
exactly one payload event, of direction `k` and `data_len = min L MAX`, for every
buffer pointer, readable or not; the first `data_len` data bytes of the event are
the bytes at the buffer pointer at return time when these are readable, and zero
bytes when they are not. -/
theorem entry_then_ret_publishes (c : Consts) (k : ssl_data_event_type)
    (ctx_e ctx_r : Firing) (mid : List (Probe × Firing)) (s : State) (j : Nat)
    (hMAX : c.MAX_DATA_SIZE_OPENSSL = 2 ^ j)
    (hid : ctx_r.current_pid_tgid = ctx_e.current_pid_tgid)
    (hpass : filtered_out c ctx_e = false)
    (hroom : (bpf_map_lookup_elem (args_map s k) ctx_e.current_pid_tgid).isSome = true ∨
      (args_map s k).length < max_entries)
    (hmid : ∀ x ∈ mid, x.1 ≠ entry_probe k ∧ x.1 ≠ ret_probe k)
    (hlen : 0 ≤ to_int32 ctx_r.rc)
    (hcpu : ctx_r.cpu < s.data_buffer_heap.length) :
    ∃ e : ssl_data_event_t,
      (run c (((entry_probe k, ctx_e) :: mid) ++ [(ret_probe k, ctx_r)]) s).tls_events =
        (run c ((entry_probe k, ctx_e) :: mid) s).tls_events ++ [e] ∧
      e.type = k ∧
      e.data_len = min (to_int32 ctx_r.rc) (c.MAX_DATA_SIZE_OPENSSL : Int) ∧
      (∀ bs, read_bytes ctx_r.mem ctx_e.parm2 e.data_len.toNat = some bs →
        e.data.take e.data_len.toNat = bs) ∧
      (read_bytes ctx_r.mem ctx_e.parm2 e.data_len.toNat = none →
        e.data.take e.data_len.toNat = List.replicate e.data_len.toNat 0) := by
  have hrun : run c (((entry_probe k, ctx_e) :: mid) ++ [(ret_probe k, ctx_r)]) s =
      fire c (ret_probe k) ctx_r (run c ((entry_probe k, ctx_e) :: mid) s) := by
    rw [run_append]; rfl
  have hbuf : bpf_map_lookup_elem (args_map (run c ((entry_probe k, ctx_e) :: mid) s) k)
      ctx_r.current_pid_tgid = some ctx_e.parm2 := by
    simp only [run]
    rw [run_other_args_map c k mid _ hmid, hid]
    exact fire_entry_stores c k ctx_e s hpass hroom
  have hcpu2 : ctx_r.cpu < (run c ((entry_probe k, ctx_e) :: mid) s).data_buffer_heap.length := by
    rw [run_heap_length]; exact hcpu
  have hpass2 : filtered_out c ctx_r = false := by
    rw [filtered_out_congr c ctx_e ctx_r hid]; exact hpass
  obtain ⟨e, ht, _, a1, _, _, _, a5, a6, _⟩ :=
    fire_ret_publish c k ctx_r (run c ((entry_probe k, ctx_e) :: mid) s) ctx_e.parm2 _ hpass2
      hbuf hlen (List.getElem?_eq_getElem hcpu2)
  have hdl : e.data_len = min (to_int32 ctx_r.rc) (c.MAX_DATA_SIZE_OPENSSL : Int) := by
    rw [a5, hMAX]; exact copy_len_pow_two j _ hlen
  have hdata : e.data.take e.data_len.toNat =
      bpf_probe_read ctx_r.mem e.data_len.toNat ctx_e.parm2 := by
    have hstore : ∀ (n : Nat) (dst : List Nat),
        (store_bytes dst (bpf_probe_read ctx_r.mem n ctx_e.parm2)).take n =
          bpf_probe_read ctx_r.mem n ctx_e.parm2 := by
      intro n dst
      have h := store_bytes_take dst (bpf_probe_read ctx_r.mem n ctx_e.parm2)
      rwa [bpf_probe_read_length] at h
    rw [a6, ← a5]
    exact hstore _ _
  refine ⟨e, by rw [hrun, ht], a1, hdl, ?_, ?_⟩
  · intro bs hbs
    rw [hdata]; simp [bpf_probe_read, hbs]
  · intro hn
    rw [hdata]; simp [bpf_probe_read, hn]

/-- C2, amended, on the write call of "hello" by thread 9 of process 1, a read call
of the same thread being entered and returned in between: the return publishes
one event, direction `kSSLWrite`, length 5, bytes "hello". -/
theorem entry_then_ret_publishes_witness :
    ∃ e : ssl_data_event_t,
      (run linux_consts
        (((entry_probe .kSSLWrite, firing_of 1 9 4096 0 (mem_of 4096 hello_bytes)) ::
          [(.entry_SSL_read, firing_of 1 9 8192 0 (mem_of 4096 hello_bytes)),
           (.ret_SSL_read, firing_of 1 9 0 3 (mem_of 4096 hello_bytes))]) ++
          [(ret_probe .kSSLWrite, firing_of 1 9 0 5 (mem_of 4096 hello_bytes))])
        (init_state 4096)).tls_events =
      (run linux_consts
        ((entry_probe .kSSLWrite, firing_of 1 9 4096 0 (mem_of 4096 hello_bytes)) ::
          [(.entry_SSL_read, firing_of 1 9 8192 0 (mem_of 4096 hello_bytes)),
           (.ret_SSL_read, firing_of 1 9 0 3 (mem_of 4096 hello_bytes))])
        (init_state 4096)).tls_events ++ [e] ∧
      e.type = .kSSLWrite ∧
      e.data_len = 5 ∧
      e.data.take e.data_len.toNat = hello_bytes :=
  Exists.imp
    (fun e h => ⟨h.1, h.2.1, h.2.2.1.trans (by decide),
      h.2.2.2.1 hello_bytes (by rw [h.2.2.1]; decide)⟩)
    (entry_then_ret_publishes linux_consts .kSSLWrite
      (firing_of 1 9 4096 0 (mem_of 4096 hello_bytes))
      (firing_of 1 9 0 5 (mem_of 4096 hello_bytes))
      [(.entry_SSL_read, firing_of 1 9 8192 0 (mem_of 4096 hello_bytes)),
       (.ret_SSL_read, firing_of 1 9 0 3 (mem_of 4096 hello_bytes))]
      (init_state 4096) 12 (by rfl) rfl (by decide) (Or.inr (by decide))
      (by decide) (by decide) (by decide))

/-! ## A return fired twice -/

/-- A return firing that finds no entry for its thread changes nothing. -/
theorem fire_ret_no_entry (c : Consts) (k : ssl_data_event_type) (ctx : Firing) (s : State)
    (h : bpf_map_lookup_elem (args_map s k) ctx.current_pid_tgid = none) :
    fire c (ret_probe k) ctx s = s := by
  cases k
  · exact probe_ret_SSL_read_no_entry c ctx s h
  · exact probe_ret_SSL_write_no_entry c ctx s h

/-- A return firing that passes the filter deletes the entry of its thread. -/
theorem fire_ret_args_map (c : Consts) (k : ssl_data_event_type) (ctx : Firing) (s : State)
    (hpass : filtered_out c ctx = false) :
    args_map (fire c (ret_probe k) ctx s) k =
      bpf_map_delete_elem (args_map s k) ctx.current_pid_tgid := by
  cases k
  · exact (probe_ret_SSL_read_pass c ctx s hpass).1
  · exact (probe_ret_SSL_write_pass c ctx s hpass).1

/-- A key without an entry in the correlator of kind `k` stays without one under
every firing other than an entry firing of kind `k`. -/
theorem fire_keeps_no_entry (c : Consts) (k : ssl_data_event_type) (p : Probe) (ctx : Firing)
    (s : State) (key : Nat) (hp : p ≠ entry_probe k)
    (h : bpf_map_lookup_elem (args_map s k) key = none) :
    bpf_map_lookup_elem (args_map (fire c p ctx s) k) key = none := by
  by_cases hr : p = ret_probe k
  · subst hr
    cases hf : filtered_out c ctx
    · rw [fire_ret_args_map c k ctx s hf]
      by_cases hk : key = ctx.current_pid_tgid
      · rw [hk]; exact lookup_delete_self _ _
      · rw [lookup_delete_other _ _ key hk]; exact h
    · rw [fire_filtered_out c _ ctx s hf]; exact h
  · rw [fire_other_args_map c k p ctx s hp hr]; exact h

theorem run_keeps_no_entry (c : Consts) (k : ssl_data_event_type) (l : List (Probe × Firing))
    (s : State) (key : Nat) (hl : ∀ x ∈ l, x.1 ≠ entry_probe k)
    (h : bpf_map_lookup_elem (args_map s k) key = none) :
    bpf_map_lookup_elem (args_map (run c l s) k) key = none := by
  induction l generalizing s with
  | nil => exact h
  | cons x rest ih =>
    obtain ⟨p, ctx⟩ := x
    simp only [run]
    exact ih _ (fun y hy => hl y (List.mem_cons_of_mem _ hy))
      (fire_keeps_no_entry c k p ctx s key (hl (p, ctx) (List.mem_cons_self _ _)) h)

/-- C7. Two return firings of the same kind on the same thread identity with no
entry firing of that kind in between (any other firings may come between them,
and none need to): when the firings pass the PID filter the second return finds no
correlator entry for the thread, and in every case it changes nothing, so it
publishes no event and leaves correlators, scratch slots and channels as it found
them; fired right after the first return, it leaves them exactly as the first
return left them, whatever the two reported lengths are. -/
theorem ret_probe_twice (c : Consts) (k : ssl_data_event_type) (ctx1 ctx2 : Firing)
    (mid : List (Probe × Firing)) (s : State)
    (hid : ctx2.current_pid_tgid = ctx1.current_pid_tgid)
    (hmid : ∀ x ∈ mid, x.1 ≠ entry_probe k) :
    (filtered_out c ctx1 = false →
      bpf_map_lookup_elem (args_map (run c mid (fire c (ret_probe k) ctx1 s)) k)
        ctx2.current_pid_tgid = none) ∧
    fire c (ret_probe k) ctx2 (run c mid (fire c (ret_probe k) ctx1 s)) =
      run c mid (fire c (ret_probe k) ctx1 s) ∧
    fire c (ret_probe k) ctx2 (fire c (ret_probe k) ctx1 s) = fire c (ret_probe k) ctx1 s := by
  have hnone : filtered_out c ctx1 = false → ∀ l : List (Probe × Firing),
      (∀ x ∈ l, x.1 ≠ entry_probe k) →
      bpf_map_lookup_elem (args_map (run c l (fire c (ret_probe k) ctx1 s)) k)
        ctx2.current_pid_tgid = none := by
    intro hpass l hl
    apply run_keeps_no_entry c k l _ _ hl
    rw [fire_ret_args_map c k ctx1 s hpass, hid]
    exact lookup_delete_self _ _
  have key : ∀ l : List (Probe × Firing), (∀ x ∈ l, x.1 ≠ entry_probe k) →
      fire c (ret_probe k) ctx2 (run c l (fire c (ret_probe k) ctx1 s)) =
        run c l (fire c (ret_probe k) ctx1 s) := by
    intro l hl
    cases hf : filtered_out c ctx1
    · exact fire_ret_no_entry c k ctx2 _ (hnone hf l hl)
    · apply fire_filtered_out
      rw [filtered_out_congr c ctx1 ctx2 hid]; exact hf
  exact ⟨fun hpass => hnone hpass mid hmid, key mid hmid, key [] (by simp)⟩

/-- C7 on a write call of thread 9 of process 1 that returned 5: a second return
firing reporting 3 leaves the state of the first one. -/
theorem ret_probe_twice_witness :
    probe_ret_SSL_write linux_consts (firing_of 1 9 0 3 (fun _ => none))
      (probe_ret_SSL_write linux_consts (firing_of 1 9 0 5 (fun _ => none))
        { init_state 4096 with active_ssl_write_args_map := [(1 * 2 ^ 32 + 9, 4096)] }) =
    probe_ret_SSL_write linux_consts (firing_of 1 9 0 5 (fun _ => none))
      { init_state 4096 with active_ssl_write_args_map := [(1 * 2 ^ 32 + 9, 4096)] } :=
  (ret_probe_twice linux_consts .kSSLWrite (firing_of 1 9 0 5 (fun _ => none))
    (firing_of 1 9 0 3 (fun _ => none)) []
    { init_state 4096 with active_ssl_write_args_map := [(1 * 2 ^ 32 + 9, 4096)] } rfl
    (by simp)).2.2

end OpensslKern
